import Mathlib

/-!
Shallow embedding of the CADET stirred-tank (CSTR) unit-operation model and the
coordinate-list sparse matrix it ships with, translated from
`src/libcadet/model/StirredTankModel.cpp` and `src/libcadet/linalg/SparseMatrix.hpp`.

Doubles are modelled as rationals (`ℚ`), raw pointers/buffers as `List ℚ` with
`List.getD`/`List.set` access (reads use default `0` where the C++ would read
out of range), and machine `unsigned int` indices as `ℕ`.
-/

namespace Cadet

/-! ## Coordinate-list sparse matrix (`linalg/SparseMatrix.hpp`) -/

/-- One stored element of the coordinate-list `SparseMatrix`: a `(row, col, value)`
triple.  The matrix is the list of these triples in insertion order. -/
structure SparseEntry where
  row : ℕ
  col : ℕ
  val : ℚ
  deriving DecidableEq

/-- The populated part of a `SparseMatrix` (the first `_curIdx` slots of the
parallel `_rows`/`_cols`/`_values` arrays), in insertion order. -/
abbrev SparseMatrix := List SparseEntry

/-- `SparseMatrix::addElement(row, col, val)`: always appends a new element
without duplicate checking (the capacity assertion is a precondition, not
behaviour, and is not modelled). -/
def addElement (m : SparseMatrix) (row col : ℕ) (val : ℚ) : SparseMatrix :=
  m ++ [⟨row, col, val⟩]

/-- `SparseMatrix::multiplyVector(x, alpha, beta, out)`: for each stored entry
`i` in insertion order, `out[_rows[i]] = alpha * _values[i] * x[_cols[i]] + beta * out[_rows[i]]`. -/
def multiplyVector (m : SparseMatrix) (x : ℕ → ℚ) (alpha beta : ℚ) (out : List ℚ) : List ℚ :=
  m.foldl (fun o e => o.set e.row (alpha * e.val * x e.col + beta * o.getD e.row 0)) out

/-- `SparseMatrix::multiplyAdd(x, out)`: for each stored entry `i` in insertion
order, `out[_rows[i]] += _values[i] * x[_cols[i]]`. -/
def multiplyAdd (m : SparseMatrix) (x : ℕ → ℚ) (out : List ℚ) : List ℚ :=
  m.foldl (fun o e => o.set e.row (o.getD e.row 0 + e.val * x e.col)) out

/-- Row `r` of the product `A·x`, where `A` is the matrix whose `(r, c)` entry is
the sum of all stored values at `(r, c)` (duplicates accumulate).  Regrouping the
sum over columns gives the sum of `val * x col` over stored entries with row `r`. -/
def rowDot (m : SparseMatrix) (x : ℕ → ℚ) (r : ℕ) : ℚ :=
  (m.map fun e => if e.row = r then e.val * x e.col else 0).sum

theorem multiplyAdd_cons (e : SparseEntry) (es : SparseMatrix) (x : ℕ → ℚ) (out : List ℚ) :
    multiplyAdd (e :: es) x out =
      multiplyAdd es x (out.set e.row (out.getD e.row 0 + e.val * x e.col)) := rfl

theorem multiplyVector_cons (e : SparseEntry) (es : SparseMatrix) (x : ℕ → ℚ) (alpha beta : ℚ)
    (out : List ℚ) :
    multiplyVector (e :: es) x alpha beta out =
      multiplyVector es x alpha beta
        (out.set e.row (alpha * e.val * x e.col + beta * out.getD e.row 0)) := rfl

theorem multiplyAdd_length (m : SparseMatrix) (x : ℕ → ℚ) (out : List ℚ) :
    (multiplyAdd m x out).length = out.length := by
  induction m generalizing out with
  | nil => rfl
  | cons e es ih => rw [multiplyAdd_cons, ih, List.length_set]

theorem multiplyVector_length (m : SparseMatrix) (x : ℕ → ℚ) (alpha beta : ℚ) (out : List ℚ) :
    (multiplyVector m x alpha beta out).length = out.length := by
  induction m generalizing out with
  | nil => rfl
  | cons e es ih => rw [multiplyVector_cons, ih, List.length_set]

theorem getD_set_self (l : List ℚ) (i : ℕ) (a : ℚ) (h : i < l.length) :
    (l.set i a).getD i 0 = a := by
  rw [List.getD_eq_getElem?_getD, List.getElem?_set_eq_of_lt a h]
  rfl

theorem getD_set_ne (l : List ℚ) (i j : ℕ) (a : ℚ) (h : i ≠ j) :
    (l.set i a).getD j 0 = l.getD j 0 := by
  rw [List.getD_eq_getElem?_getD, List.getElem?_set_ne h, ← List.getD_eq_getElem?_getD]

/-- C7: `multiplyAdd` changes `out[r]` by exactly the sum of `val * x[col]` over
the stored entries with row `r`; duplicate `(row, col)` entries contribute their
sum.  (Rows of all stored entries must lie inside the output buffer, as the C++
caller guarantees.) -/
theorem multiplyAdd_changes_row_by_rowDot (m : SparseMatrix) (x : ℕ → ℚ) (out : List ℚ)
    (hrows : ∀ e ∈ m, e.row < out.length) (r : ℕ) (hr : r < out.length) :
    (multiplyAdd m x out).getD r 0 = out.getD r 0 + rowDot m x r := by
  induction m generalizing out with
  | nil => simp [multiplyAdd, rowDot]
  | cons e es ih =>
    have he : e.row < out.length := hrows e (List.mem_cons_self e es)
    have hlen : (out.set e.row (out.getD e.row 0 + e.val * x e.col)).length = out.length :=
      List.length_set ..
    rw [multiplyAdd_cons, ih _ (fun a ha => by rw [hlen]; exact hrows a (List.mem_cons_of_mem e ha))
      (by rw [hlen]; exact hr)]
    by_cases hcase : e.row = r
    · subst hcase
      rw [getD_set_self _ _ _ he]
      simp [rowDot]
      ring
    · rw [getD_set_ne _ _ _ _ hcase]
      simp [rowDot, hcase]

/-- Closed witness for `multiplyAdd_changes_row_by_rowDot`: three entries, two of
them duplicates at `(0, 0)`, over the buffer `[100, 200]`. -/
theorem multiplyAdd_changes_row_by_rowDot_witness :
    (∀ e ∈ ([⟨0, 0, 2⟩, ⟨0, 1, 3⟩, ⟨0, 0, 5⟩] : SparseMatrix), e.row < ([100, 200] : List ℚ).length) ∧
      (0 : ℕ) < ([100, 200] : List ℚ).length ∧
      (multiplyAdd [⟨0, 0, 2⟩, ⟨0, 1, 3⟩, ⟨0, 0, 5⟩] (fun c => if c = 0 then 10 else 1000)
          [100, 200]).getD 0 0 =
        ([100, 200] : List ℚ).getD 0 0 +
          rowDot [⟨0, 0, 2⟩, ⟨0, 1, 3⟩, ⟨0, 0, 5⟩] (fun c => if c = 0 then 10 else 1000) 0 :=
  ⟨by decide, by decide,
    multiplyAdd_changes_row_by_rowDot _ _ _ (by decide) 0 (by decide)⟩

/-- C6 counterexample: with the duplicate entries `(0,0,1), (0,0,1)`, `x = [1]`,
`alpha = 1`, `beta = 2`, `y = [1]`, the code computes `1*1*1 + 2*1 = 3` after the
first entry and `1*1*1 + 2*3 = 7` after the second, while `alpha*A*x + beta*y`
with `A = [[2]]` is `1*2*1 + 2*1 = 4`.  `beta` is compounded once per stored
entry, so the claimed `y := alpha*A*x + beta*y` semantics fails. -/
theorem multiplyVector_claim_counterexample :
    multiplyVector [⟨0, 0, 1⟩, ⟨0, 0, 1⟩] (fun _ => 1) 1 2 [1] = [7] ∧
      1 * rowDot [⟨0, 0, 1⟩, ⟨0, 0, 1⟩] (fun _ => 1) 0 + 2 * ([1] : List ℚ).getD 0 0 = 4 ∧
      (multiplyVector [⟨0, 0, 1⟩, ⟨0, 0, 1⟩] (fun _ => 1) 1 2 [1]).getD 0 0 ≠
        1 * rowDot [⟨0, 0, 1⟩, ⟨0, 0, 1⟩] (fun _ => 1) 0 + 2 * ([1] : List ℚ).getD 0 0 := by
  refine ⟨?_, ?_, ?_⟩ <;> norm_num [multiplyVector, rowDot, List.getD]

/-- C6 amended: with `beta = 1` the per-entry update `out[r] := alpha*val*x[col] + out[r]`
accumulates, so `multiplyVector` does realize `y := alpha*A*x + y` with duplicate
`(row, col)` entries summing into `A`. -/
theorem multiplyVector_beta_one (m : SparseMatrix) (x : ℕ → ℚ) (alpha : ℚ) (out : List ℚ)
    (hrows : ∀ e ∈ m, e.row < out.length) (r : ℕ) (hr : r < out.length) :
    (multiplyVector m x alpha 1 out).getD r 0 = alpha * rowDot m x r + out.getD r 0 := by
  induction m generalizing out with
  | nil => simp [multiplyVector, rowDot]
  | cons e es ih =>
    have he : e.row < out.length := hrows e (List.mem_cons_self e es)
    have hlen : (out.set e.row (alpha * e.val * x e.col + 1 * out.getD e.row 0)).length =
        out.length := List.length_set ..
    rw [multiplyVector_cons,
      ih _ (fun a ha => by rw [hlen]; exact hrows a (List.mem_cons_of_mem e ha))
        (by rw [hlen]; exact hr)]
    by_cases hcase : e.row = r
    · subst hcase
      rw [getD_set_self _ _ _ he]
      simp [rowDot]
      ring
    · rw [getD_set_ne _ _ _ _ hcase]
      simp [rowDot, hcase]

/-- Closed witness for `multiplyVector_beta_one`: duplicate entries at `(0, 0)`
over the buffer `[5]` with `alpha = 3`. -/
theorem multiplyVector_beta_one_witness :
    (∀ e ∈ ([⟨0, 0, 1⟩, ⟨0, 0, 1⟩] : SparseMatrix), e.row < ([5] : List ℚ).length) ∧
      (0 : ℕ) < ([5] : List ℚ).length ∧
      (multiplyVector [⟨0, 0, 1⟩, ⟨0, 0, 1⟩] (fun _ => 1) 3 1 [5]).getD 0 0 =
        3 * rowDot [⟨0, 0, 1⟩, ⟨0, 0, 1⟩] (fun _ => 1) 0 + ([5] : List ℚ).getD 0 0 :=
  ⟨by decide, by decide, multiplyVector_beta_one _ _ _ _ (by decide) 0 (by decide)⟩

/-! ## CSTR model discretization (`model/StirredTankModel.cpp`) -/

/-- The `CSTRModel` configuration relevant to the embedded routines: `_nComp`,
the `_nBound` array, the flow rates `_flowRateIn` / `_flowRateOut` set by
`setFlowRates`, the current filter flow `_curFlowRateFilter`, and `_porosity`. -/
structure CSTRParams where
  nComp : ℕ
  nBound : List ℕ
  flowRateIn : ℚ
  flowRateOut : ℚ
  curFlowRateFilter : ℚ
  porosity : ℚ

/-- `_boundOffset` as precomputed in `CSTRModel::configure`:
`_boundOffset[0] = 0` and `_boundOffset[i] = _boundOffset[i-1] + _nBound[i-1]`. -/
def boundOffset (nBound : List ℕ) : ℕ → ℕ
  | 0 => 0
  | i + 1 => boundOffset nBound i + nBound.getD i 0

/-- `_strideBound` as computed in `CSTRModel::configure`:
`_boundOffset[_nComp - 1] + _nBound[_nComp - 1]`. -/
def strideBound (p : CSTRParams) : ℕ :=
  boundOffset p.nBound (p.nComp - 1) + p.nBound.getD (p.nComp - 1) 0

/-- `CSTRModel::numDofs()`: `2 * _nComp + _strideBound + 1`. -/
def numDofs (p : CSTRParams) : ℕ := 2 * p.nComp + strideBound p + 1

/-- `CSTRModel::numPureDofs()`: `_nComp + _strideBound + 1`. -/
def numPureDofs (p : CSTRParams) : ℕ := p.nComp + strideBound p + 1

theorem boundOffset_eq_sum_take (nBound : List ℕ) (i : ℕ) :
    boundOffset nBound i = (nBound.take i).sum := by
  induction i with
  | zero => rfl
  | succ i ih =>
    rw [boundOffset, ih, List.take_succ, List.sum_append, List.getD_eq_getElem?_getD]
    cases nBound[i]? <;> simp

/-- C8: with `_nBound` holding one count per component, the prefix-sum recurrence
makes `_strideBound` the total bound-state count, so
`numDofs = 2·nComp + strideBound + 1` and `numPureDofs = nComp + strideBound + 1`
expand to the totals the spec states; with all counts zero they collapse to
`2·nComp + 1` and `nComp + 1`. -/
theorem numDofs_pureDofs_spec (p : CSTRParams) (hlen : p.nBound.length = p.nComp)
    (hpos : 1 ≤ p.nComp) :
    strideBound p = p.nBound.sum ∧
      numDofs p = 2 * p.nComp + p.nBound.sum + 1 ∧
      numPureDofs p = p.nComp + p.nBound.sum + 1 ∧
      ((∀ b ∈ p.nBound, b = 0) → numDofs p = 2 * p.nComp + 1 ∧ numPureDofs p = p.nComp + 1) := by
  have hstride : strideBound p = p.nBound.sum := by
    have h1 : strideBound p = (p.nBound.take (p.nComp - 1 + 1)).sum := by
      rw [strideBound, boundOffset_eq_sum_take, List.take_succ, List.sum_append,
        List.getD_eq_getElem?_getD]
      cases p.nBound[p.nComp - 1]? <;> simp
    have h2 : p.nComp - 1 + 1 = p.nComp := Nat.succ_pred_eq_of_pos hpos
    rw [h1, h2, ← hlen, List.take_length]
  refine ⟨hstride, by rw [numDofs, hstride], by rw [numPureDofs, hstride], fun hz => ?_⟩
  have hsum : p.nBound.sum = 0 := List.sum_eq_zero hz
  constructor
  · rw [numDofs, hstride, hsum]
  · rw [numPureDofs, hstride, hsum]

/-- Closed witness for `numDofs_pureDofs_spec` at `nComp = 2`, `nBound = [1, 2]`. -/
theorem numDofs_pureDofs_spec_witness :
    (([1, 2] : List ℕ).length = 2 ∧ 1 ≤ 2) ∧
      (strideBound ⟨2, [1, 2], 0, 0, 0, 1⟩ = ([1, 2] : List ℕ).sum ∧
        numDofs ⟨2, [1, 2], 0, 0, 0, 1⟩ = 2 * 2 + ([1, 2] : List ℕ).sum + 1 ∧
        numPureDofs ⟨2, [1, 2], 0, 0, 0, 1⟩ = 2 + ([1, 2] : List ℕ).sum + 1 ∧
        ((∀ b ∈ ([1, 2] : List ℕ), b = 0) →
          numDofs ⟨2, [1, 2], 0, 0, 0, 1⟩ = 2 * 2 + 1 ∧
            numPureDofs ⟨2, [1, 2], 0, 0, 0, 1⟩ = 2 + 1)) :=
  ⟨⟨by decide, by decide⟩, numDofs_pureDofs_spec ⟨2, [1, 2], 0, 0, 0, 1⟩ (by decide) (by decide)⟩

/-! ## Consistent initialization (`CSTRModel::consistentInitialState`) -/

/-- The volume derivative `\dot{V} = F_in - F_out - F_filter` computed by the
consistent-initialization routines. -/
def vDotFlow (p : CSTRParams) : ℚ := p.flowRateIn - p.flowRateOut - p.curFlowRateFilter

/-- The tank-concentration overwrite loop of `CSTRModel::consistentInitialState`:
`c[i] = vecStateY[i] * factor` with `c = vecStateY + _nComp`, over an explicit
list of loop indices. -/
def tankAssignLoop (nComp : ℕ) (factor : ℚ) : List ℕ → List ℚ → List ℚ
  | [], y => y
  | i :: is, y => tankAssignLoop nComp factor is (y.set (nComp + i) (y.getD i 0 * factor))

/-- `CSTRModel::consistentInitialState`: reads `v` from `c[_nComp]`, i.e. from
slot `2 * _nComp` of the state vector (which is the tank volume exactly when
`_strideBound = 0`; the volume slot of the documented layout is
`2 * _nComp + _strideBound`); if `v = 0` and `denom = vDot + F_out ≠ 0`,
overwrites each tank concentration with `c_in_i * F_in / denom`. -/
def consistentInitialState (p : CSTRParams) (y : List ℚ) : List ℚ :=
  if y.getD (2 * p.nComp) 0 = 0 then
    if vDotFlow p + p.flowRateOut = 0 then y
    else tankAssignLoop p.nComp (p.flowRateIn / (vDotFlow p + p.flowRateOut)) (List.range p.nComp) y
  else y

/-- The tank concentration mandated by the claim (and by the spec):
`c_i = c_in_i * F_in / (vDot + F_out)`. -/
def specConsistentC (p : CSTRParams) (y : List ℚ) (i : ℕ) : ℚ :=
  y.getD i 0 * (p.flowRateIn / (vDotFlow p + p.flowRateOut))

/-- C2: with one bound state (`_strideBound = 1`) the state layout puts the tank
volume at slot `2 * _nComp + _strideBound = 3`, but `consistentInitialState`
tests slot `2 * _nComp = 2` — the first bound state.  On the state
`[c_in = 5, c = 1, q = 3, V = 0]` with `F_in = 2`, `F_out = 1`, `F_filter = 0`
the volume is `0` and the denominator is `2 ≠ 0`, so the claim mandates
`c = 5 * 2 / 2 = 5`; the code sees `3 ≠ 0` and leaves the state untouched
(`c` stays `1`).  Without bound states the routine does behave as claimed
(final conjunct, the spec's own worked example). -/
theorem consistentInitialState_wrong_volume_slot :
    consistentInitialState ⟨1, [1], 2, 1, 0, 1⟩ [5, 1, 3, 0] = [5, 1, 3, 0] ∧
      ([5, 1, 3, 0] : List ℚ).getD (2 * 1 + strideBound ⟨1, [1], 2, 1, 0, 1⟩) 0 = 0 ∧
      vDotFlow ⟨1, [1], 2, 1, 0, 1⟩ + (1 : ℚ) ≠ 0 ∧
      specConsistentC ⟨1, [1], 2, 1, 0, 1⟩ [5, 1, 3, 0] 0 = 5 ∧
      ([5, 1, 3, 0] : List ℚ).getD (1 + 0) 0 = 1 ∧
      consistentInitialState ⟨1, [0], 2, 1, 0, 1⟩ [5, 1, 0] = [5, 5, 0] := by
  refine ⟨?_, ?_, ?_, ?_, ?_, ?_⟩ <;>
    norm_num [consistentInitialState, tankAssignLoop, vDotFlow, specConsistentC, strideBound,
      boundOffset, List.getD, List.range_succ]

theorem tankAssignLoop_length (nComp : ℕ) (factor : ℚ) (is : List ℕ) (y : List ℚ) :
    (tankAssignLoop nComp factor is y).length = y.length := by
  induction is generalizing y with
  | nil => rfl
  | cons i is ih => rw [tankAssignLoop, ih, List.length_set]

theorem tankAssignLoop_getD_of_ne (nComp : ℕ) (factor : ℚ) (is : List ℕ) (y : List ℚ) (j : ℕ)
    (h : ∀ i ∈ is, nComp + i ≠ j) :
    (tankAssignLoop nComp factor is y).getD j 0 = y.getD j 0 := by
  induction is generalizing y with
  | nil => rfl
  | cons i is ih =>
    rw [tankAssignLoop, ih _ (fun a ha => h a (List.mem_cons_of_mem i ha)),
      getD_set_ne _ _ _ _ (h i (List.mem_cons_self i is))]

/-- C10 counterexample: with one bound state, the state `[5, 1, 0, 2]` has tank
volume `2 ≠ 0` at slot `2 * _nComp + _strideBound = 3`, yet
`consistentInitialState` (which tests slot `2`, here the bound state `0`)
rewrites the tank concentration to `5`. -/
theorem consistentInitialState_nonzero_volume_counterexample :
    ([5, 1, 0, 2] : List ℚ).getD (2 * 1 + strideBound ⟨1, [1], 2, 1, 0, 1⟩) 0 ≠ 0 ∧
      consistentInitialState ⟨1, [1], 2, 1, 0, 1⟩ [5, 1, 0, 2] ≠ [5, 1, 0, 2] := by
  constructor <;>
    norm_num [consistentInitialState, tankAssignLoop, vDotFlow, strideBound, boundOffset,
      List.getD, List.range_succ]

/-- C10 amended: `consistentInitialState` writes at most the `nComp` tank slots
`nComp, …, 2·nComp - 1` (inlet, bound-state and volume slots are untouched and
the length is kept), and the whole state is returned unchanged whenever the
value it tests — slot `2 * nComp`, the tank volume precisely when there are no
bound states — is nonzero. -/
theorem consistentInitialState_frame (p : CSTRParams) (y : List ℚ) (j : ℕ)
    (h : j < p.nComp ∨ 2 * p.nComp ≤ j) :
    (consistentInitialState p y).getD j 0 = y.getD j 0 ∧
      (consistentInitialState p y).length = y.length ∧
      (y.getD (2 * p.nComp) 0 ≠ 0 → consistentInitialState p y = y) := by
  refine ⟨?_, ?_, fun hv => ?_⟩
  · rw [consistentInitialState]
    split
    · split
      · rfl
      · refine tankAssignLoop_getD_of_ne _ _ _ _ _ (fun i hi => ?_)
        have hlt : i < p.nComp := List.mem_range.mp hi
        rcases h with h | h <;> omega
    · rfl
  · rw [consistentInitialState]
    split
    · split
      · rfl
      · exact tankAssignLoop_length ..
    · rfl
  · rw [consistentInitialState, if_neg hv]

/-- Closed witness for `consistentInitialState_frame` at a zero-volume state with
no bound states and inlet slot `j = 0`. -/
theorem consistentInitialState_frame_witness :
    ((0 : ℕ) < 1 ∨ 2 * 1 ≤ 0) ∧
      ((consistentInitialState ⟨1, [0], 2, 1, 0, 1⟩ [5, 1, 0]).getD 0 0 =
          ([5, 1, 0] : List ℚ).getD 0 0 ∧
        (consistentInitialState ⟨1, [0], 2, 1, 0, 1⟩ [5, 1, 0]).length =
          ([5, 1, 0] : List ℚ).length ∧
        (([5, 1, 0] : List ℚ).getD (2 * 1) 0 ≠ 0 →
          consistentInitialState ⟨1, [0], 2, 1, 0, 1⟩ [5, 1, 0] = [5, 1, 0])) :=
  ⟨Or.inl (by decide), consistentInitialState_frame ⟨1, [0], 2, 1, 0, 1⟩ [5, 1, 0] 0
    (Or.inl (by decide))⟩

/-! ## Consistent time derivatives (`CSTRModel::consistentInitialTimeDerivative`) -/

/-- `CSTRModel::consistentInitialTimeDerivative`: writes
`cDot[_nComp] = vDot` (slot `2 * _nComp` of the derivative vector), then, when the
tested volume slot `2 * _nComp` of the state is zero and
`denom = 2 * vDot + F_out ≠ 0`, executes per component
`vecStateYdot[i] = 0.0; cDot[i] = vecStateYdot[i] * factor` — the incoming inlet
derivative is overwritten with zero before being used (the source marks this
with a TODO as wrong).  With `denom = 0` the tank derivatives are filled with
zero; with nonzero tested volume `cDot[i] = (-cDot[i] - vDot * c[i]) / v`. -/
def consistentInitialTimeDerivative (p : CSTRParams) (y yDot : List ℚ) : List ℚ :=
  let v := y.getD (2 * p.nComp) 0
  let vDot := vDotFlow p
  let yd := yDot.set (2 * p.nComp) vDot
  if v = 0 then
    if 2 * vDot + p.flowRateOut = 0 then
      (List.range p.nComp).foldl (fun acc i => acc.set (p.nComp + i) 0) yd
    else
      (List.range p.nComp).foldl
        (fun acc i =>
          let acc1 := acc.set i 0
          acc1.set (p.nComp + i) (acc1.getD i 0 * (p.flowRateIn / (2 * vDot + p.flowRateOut)))) yd
  else
    (List.range p.nComp).foldl
      (fun acc i =>
        acc.set (p.nComp + i) ((-acc.getD (p.nComp + i) 0 - vDot * y.getD (p.nComp + i) 0) / v)) yd

/-- The tank-concentration time derivative mandated by the claim (and by the
derivation in the source's own comment):
`\dot{c}_i = F_in * \dot{c}_in_i / (2 * vDot + F_out)` with `\dot{c}_in_i` the
supplied inflow-concentration derivative. -/
def specConsistentCDot (p : CSTRParams) (yDot : List ℚ) (i : ℕ) : ℚ :=
  p.flowRateIn * yDot.getD i 0 / (2 * vDotFlow p + p.flowRateOut)

/-- C3: at `V = 0`, `F_in = 2`, `F_out = 1`, `F_filter = 0` the denominator is
`2 * 1 + 1 = 3 ≠ 0`; with supplied inflow derivative `\dot{c}_in = 3` the claim
mandates `\dot{c} = 2 * 3 / 3 = 2`, but the code first overwrites
`vecStateYdot[0]` with `0.0` and then multiplies, producing `\dot{c} = 0`
(result vector `[0, 0, 1]`, the trailing `1` being `vDot`). -/
theorem consistentInitialTimeDerivative_zeroes_inlet_derivative :
    consistentInitialTimeDerivative ⟨1, [0], 2, 1, 0, 1⟩ [1, 1, 0] [3, 9, 9] = [0, 0, 1] ∧
      2 * vDotFlow ⟨1, [0], 2, 1, 0, 1⟩ + (1 : ℚ) ≠ 0 ∧
      specConsistentCDot ⟨1, [0], 2, 1, 0, 1⟩ [3, 9, 9] 0 = 2 ∧
      (consistentInitialTimeDerivative ⟨1, [0], 2, 1, 0, 1⟩ [1, 1, 0] [3, 9, 9]).getD (1 + 0) 0 ≠
        specConsistentCDot ⟨1, [0], 2, 1, 0, 1⟩ [3, 9, 9] 0 := by
  refine ⟨?_, ?_, ?_, ?_⟩ <;>
    norm_num [consistentInitialTimeDerivative, vDotFlow, specConsistentCDot, List.getD,
      List.range_succ]

/-! ## Residual assembly (`CSTRModel::residualImpl`, no-Jacobian path) -/

/-- The inner bound-state summation loop of `residualImpl` as written:
`for (unsigned int j = 0; i < nBound; ++i) resC[i] += qDot[j];` — the condition
and increment use the OUTER index `i` while `j` stays `0`, so each pass adds
`qDot[0]` to `resC` at the current `i` and then increments `i`.  Here `d` is the
remaining iteration count (`nBound - i` at entry) and indices are into the full
residual vector (`resC = res + nComp`). -/
def resCAddLoop (nComp : ℕ) (qd0 : ℚ) : ℕ → ℕ → List ℚ → List ℚ
  | _, 0, res => res
  | i, d + 1, res =>
      resCAddLoop nComp qd0 (i + 1) d (res.set (nComp + i) (res.getD (nComp + i) 0 + qd0))

/-- The tank-concentration loop of `residualImpl` (no-Jacobian path), with the
outer index `i` shared with the inner summation loop exactly as in the source:
after the inner loop ran `nBound - i` times, the scaling assignment
`resC[i] = timeFactor * ((cDot[i] + invBeta * resC[i]) * v + vDot * c[i])` and
the flow terms `resC[i] += -flowIn * cIn[i] + flowOut * c[i]` are applied at the
POST-inner-loop value of `i`, and the outer `++i` follows.  `fuel` only bounds
the number of outer iterations for structural recursion: every iteration
advances `i` by at least one, so the `fuel = nComp` supplied by `residualNoJac`
(with `i` starting at `0`) is never exhausted before the guard `i < nComp`
fails, exactly as in the `for` loop. -/
def concLoop (p : CSTRParams) (tf v vDot invBeta : ℚ) (y : List ℚ) (yDot : Option (List ℚ)) :
    ℕ → ℕ → List ℚ → List ℚ
  | 0, _, res => res
  | fuel + 1, i, res =>
    if i < p.nComp then
      let res1 := res.set (p.nComp + i) 0
      let nb := p.nBound.getD i 0
      match yDot with
      | some yd =>
        let qd0 := yd.getD (2 * p.nComp + boundOffset p.nBound i) 0
        let i2 := i + (nb - i)
        let res2 := resCAddLoop p.nComp qd0 i (nb - i) res1
        let res3 := res2.set (p.nComp + i2)
          (tf * ((yd.getD (p.nComp + i2) 0 + invBeta * res2.getD (p.nComp + i2) 0) * v
            + vDot * y.getD (p.nComp + i2) 0))
        let res4 := res3.set (p.nComp + i2)
          (res3.getD (p.nComp + i2) 0
            + (-p.flowRateIn * y.getD i2 0 + p.flowRateOut * y.getD (p.nComp + i2) 0))
        concLoop p tf v vDot invBeta y yDot fuel (i2 + 1) res4
      | none =>
        let res4 := res1.set (p.nComp + i)
          (res1.getD (p.nComp + i) 0
            + (-p.flowRateIn * y.getD i 0 + p.flowRateOut * y.getD (p.nComp + i) 0))
        concLoop p tf v vDot invBeta y yDot fuel (i + 1) res4
    else res

/-- Overwrite `res[off + k]` with the `k`-th element of `vals` (pointer-target
writes of the external binding model into `res + 2 * nComp`). -/
def overwriteFrom : List ℚ → ℕ → List ℚ → List ℚ
  | res, _, [] => res
  | res, off, w :: ws => overwriteFrom (res.set off w) (off + 1) ws

/-- `CSTRModel::residualImpl` with `wantJac = false`, over a caller-supplied
residual buffer `res`: inlet pass-through block, the tank-concentration loop
`concLoop`, the external binding model's bound-state residual (`binding`, writing
the `strideBound` slots at `2 * nComp`), and the volume equation
`vDot - F_in + F_out + F_filter`. -/
def residualNoJac (p : CSTRParams) (tf : ℚ) (y : List ℚ) (yDot : Option (List ℚ))
    (binding : List ℚ → Option (List ℚ) → List ℚ) (res : List ℚ) : List ℚ :=
  let vDot := match yDot with
    | some yd => yd.getD (2 * p.nComp + strideBound p) 0
    | none => 0
  let invBeta := 1 / p.porosity - 1
  let res1 := (List.range p.nComp).foldl (fun acc i => acc.set i (y.getD i 0)) res
  let res2 :=
    concLoop p tf (y.getD (2 * p.nComp + strideBound p) 0) vDot invBeta y yDot p.nComp 0 res1
  let res3 := overwriteFrom res2 (2 * p.nComp) (binding y yDot)
  res3.set (2 * p.nComp + strideBound p) (vDot - p.flowRateIn + p.flowRateOut + p.curFlowRateFilter)

/-- The tank-concentration residual entry as the claim (and the source's own
comment `Sum dq_{i,1}/dt + ... + dq_{i,N_i}/dt`) states it:
`timeFactor * ((dc_i/dt + (1/porosity - 1) * Σ_{j < nBound[i]} dq_{i,j}/dt) * V + dV/dt * c_i)
 - flowIn * c_in_i + flowOut * c_i`. -/
def specTankResidual (p : CSTRParams) (tf : ℚ) (y yd : List ℚ) (i : ℕ) : ℚ :=
  tf * ((yd.getD (p.nComp + i) 0
      + (1 / p.porosity - 1) *
        ((List.range (p.nBound.getD i 0)).map
          (fun j => yd.getD (2 * p.nComp + boundOffset p.nBound i + j) 0)).sum)
      * y.getD (2 * p.nComp + strideBound p) 0
    + yd.getD (2 * p.nComp + strideBound p) 0 * y.getD (p.nComp + i) 0)
  - p.flowRateIn * y.getD i 0 + p.flowRateOut * y.getD (p.nComp + i) 0

/-- C1: one component with two bound states, porosity `1/2` (`invBeta = 1`),
`timeFactor = 1`, state `y = [c_in = 1, c = 2, q = (0, 0), V = 2]`, derivatives
`yDot = [0, dc/dt = 3, dq_1/dt = 5, dq_2/dt = 7, dV/dt = 0]`, flows
`F_in = F_out = 1`, zero-residual binding model, zeroed residual buffer.  The
claimed entry is `1*((3 + 1*(5 + 7))*2 + 0*2) - 1*1 + 1*2 = 31`; the code's
inner loop instead adds `dq_1/dt = 5` once to `resC[0]` while incrementing the
outer index, then applies the scaling and flow terms at the out-of-range
component index `2`, leaving the tank residual entry at `5`
(full residual vector `[1, 5, 0, 0, 0]`). -/
theorem residual_bound_state_sum_counterexample :
    residualNoJac ⟨1, [2], 1, 1, 0, 1/2⟩ 1 [1, 2, 0, 0, 2] (some [0, 3, 5, 7, 0])
        (fun _ _ => [0, 0]) [0, 0, 0, 0, 0] = [1, 5, 0, 0, 0] ∧
      specTankResidual ⟨1, [2], 1, 1, 0, 1/2⟩ 1 [1, 2, 0, 0, 2] [0, 3, 5, 7, 0] 0 = 31 ∧
      (residualNoJac ⟨1, [2], 1, 1, 0, 1/2⟩ 1 [1, 2, 0, 0, 2] (some [0, 3, 5, 7, 0])
          (fun _ _ => [0, 0]) [0, 0, 0, 0, 0]).getD (1 + 0) 0 ≠
        specTankResidual ⟨1, [2], 1, 1, 0, 1/2⟩ 1 [1, 2, 0, 0, 2] [0, 3, 5, 7, 0] 0 := by
  refine ⟨?_, ?_, ?_⟩ <;>
    norm_num [residualNoJac, concLoop, resCAddLoop, overwriteFrom, specTankResidual,
      strideBound, boundOffset, List.getD, List.range_succ]

/-! ## Linear solve (`CSTRModel::linearSolve` and `addTimeDerivativeJacobian`) -/

/-- Dense `numPureDofs × numPureDofs` matrices (`_jac`, `_jacFact`) as index
functions. -/
abbrev Mat := ℕ → ℕ → ℚ

/-- `CSTRModel::addTimeDerivativeJacobian(t, timeFactor, y, yDot, mat)` (the
`yDot` argument is unused in the source).  Writes, for each component row
`i < nComp`: the diagonal `timeFactor * V`, the bound-state columns
`timeFactor * V * invBeta`, and the volume column
`timeFactor * (c_i + invBeta * Σ_j q_{i,j})`; sets the volume diagonal to
`timeFactor`; `bindDisc` is the external binding model's
`jacobianAddDiscretized` contribution, added into the bound-state rows. -/
def addTimeDerivativeJacobian (p : CSTRParams) (tf : ℚ) (y : List ℚ)
    (bindDisc : ℕ → ℕ → ℚ) (mat : Mat) : Mat :=
  fun r c =>
    if r < p.nComp then
      if c = r then tf * y.getD (2 * p.nComp + strideBound p) 0
      else if p.nComp + boundOffset p.nBound r ≤ c ∧
          c < p.nComp + boundOffset p.nBound r + p.nBound.getD r 0 then
        tf * y.getD (2 * p.nComp + strideBound p) 0 * (1 / p.porosity - 1)
      else if c = p.nComp + strideBound p then
        tf * (y.getD (p.nComp + r) 0 + (1 / p.porosity - 1) *
          ((List.range (p.nBound.getD r 0)).map
            (fun j => y.getD (2 * p.nComp + boundOffset p.nBound r + j) 0)).sum)
      else mat r c
    else if r < p.nComp + strideBound p then mat r c + bindDisc r c
    else if r = p.nComp + strideBound p ∧ c = p.nComp + strideBound p then tf
    else mat r c

/-- The Jacobian bookkeeping of a `CSTRModel`: the state Jacobian `_jac`, the
factorization target `_jacFact`, and the staleness flag `_factorizeJac`. -/
structure CSTRLinAlg where
  jac : Mat
  jacFact : Mat
  factorizeJac : Bool

/-- The Jacobian bookkeeping of `CSTRModel::residual`: an evaluation with
`updateJacobian = true` marks the factorization stale (`_factorizeJac = true`). -/
def residualFlagUpdate (updateJacobian : Bool) (st : CSTRLinAlg) : CSTRLinAlg :=
  if updateJacobian then { st with factorizeJac := true } else st

/-- The inlet back-substitution loop of `CSTRModel::linearSolve`:
`rhs[i + _nComp] += flowIn * rhs[i]` over an explicit list of loop indices. -/
def backSubstLoop (nComp : ℕ) (flowIn : ℚ) : List ℕ → List ℚ → List ℚ
  | [], rhs => rhs
  | i :: is, rhs =>
      backSubstLoop nComp flowIn is
        (rhs.set (nComp + i) (rhs.getD (nComp + i) 0 + flowIn * rhs.getD i 0))

/-- `CSTRModel::linearSolve`: first the inlet back-substitution, then, only when
`_factorizeJac` is set, clear the flag, copy `_jac` into `_jacFact`, call
`addTimeDerivativeJacobian(..., _jac)` — the time-derivative terms go into
`_jac`, not into the copy — and factorize `_jacFact`.  The factorization and the
in-place triangular solve `_jacFact.solve(rhs + _nComp)` are external
LAPACK-style calls; the model returns the post-call bookkeeping state (whose
`jacFact` field is exactly the matrix those calls received) together with the
right-hand side handed to the solve. -/
def linearSolve (p : CSTRParams) (tf : ℚ) (y : List ℚ) (bindDisc : ℕ → ℕ → ℚ)
    (st : CSTRLinAlg) (rhs : List ℚ) : CSTRLinAlg × List ℚ :=
  let rhs1 := backSubstLoop p.nComp p.flowRateIn (List.range p.nComp) rhs
  if st.factorizeJac then
    (⟨addTimeDerivativeJacobian p tf y bindDisc st.jac, st.jac, false⟩, rhs1)
  else (st, rhs1)

/-- C4: one component, no bound states, porosity `1`, `timeFactor = 1`, state
`y = [c_in = 0, c = 3, V = 2]`, stored state Jacobian `_jac = 0` and stale flag
set.  The combined state + time-derivative Jacobian has `timeFactor * V = 2` in
its `(0,0)` entry, but the matrix handed to factorize/solve is the unmodified
state Jacobian (`0` there): `addTimeDerivativeJacobian` was applied to `_jac`
after it was copied into `_jacFact`, so the factorized matrix misses the
time-derivative contribution — which instead corrupts the stored `_jac`.  The
flag bookkeeping itself behaves as claimed: it is cleared by the call, a second
call leaves the bookkeeping untouched, and a residual evaluation with a
Jacobian update sets it again. -/
theorem linearSolve_factorizes_stale_state_jacobian :
    (linearSolve ⟨1, [0], 1, 1, 0, 1⟩ 1 [0, 3, 2] (fun _ _ => 0)
        ⟨fun _ _ => 0, fun _ _ => 99, true⟩ [0, 0, 0]).1.jacFact 0 0 = 0 ∧
      addTimeDerivativeJacobian ⟨1, [0], 1, 1, 0, 1⟩ 1 [0, 3, 2] (fun _ _ => 0)
        (fun _ _ => 0) 0 0 = 2 ∧
      (linearSolve ⟨1, [0], 1, 1, 0, 1⟩ 1 [0, 3, 2] (fun _ _ => 0)
          ⟨fun _ _ => 0, fun _ _ => 99, true⟩ [0, 0, 0]).1.jacFact 0 0 ≠
        addTimeDerivativeJacobian ⟨1, [0], 1, 1, 0, 1⟩ 1 [0, 3, 2] (fun _ _ => 0)
          (fun _ _ => 0) 0 0 ∧
      (linearSolve ⟨1, [0], 1, 1, 0, 1⟩ 1 [0, 3, 2] (fun _ _ => 0)
          ⟨fun _ _ => 0, fun _ _ => 99, true⟩ [0, 0, 0]).1.jac 0 0 = 2 ∧
      (linearSolve ⟨1, [0], 1, 1, 0, 1⟩ 1 [0, 3, 2] (fun _ _ => 0)
          ⟨fun _ _ => 0, fun _ _ => 99, true⟩ [0, 0, 0]).1.factorizeJac = false ∧
      (linearSolve ⟨1, [0], 1, 1, 0, 1⟩ 1 [0, 3, 2] (fun _ _ => 0)
          (linearSolve ⟨1, [0], 1, 1, 0, 1⟩ 1 [0, 3, 2] (fun _ _ => 0)
            ⟨fun _ _ => 0, fun _ _ => 99, true⟩ [0, 0, 0]).1 [0, 0, 0]).1 =
        (linearSolve ⟨1, [0], 1, 1, 0, 1⟩ 1 [0, 3, 2] (fun _ _ => 0)
          ⟨fun _ _ => 0, fun _ _ => 99, true⟩ [0, 0, 0]).1 ∧
      (residualFlagUpdate true
        (linearSolve ⟨1, [0], 1, 1, 0, 1⟩ 1 [0, 3, 2] (fun _ _ => 0)
          ⟨fun _ _ => 0, fun _ _ => 99, true⟩ [0, 0, 0]).1).factorizeJac = true := by
  refine ⟨?_, ?_, ?_, ?_, ?_, ?_, ?_⟩ <;>
    norm_num [linearSolve, addTimeDerivativeJacobian, backSubstLoop, residualFlagUpdate,
      strideBound, boundOffset, List.getD, List.range_succ]

theorem backSubstLoop_length (nComp : ℕ) (flowIn : ℚ) (is : List ℕ) (rhs : List ℚ) :
    (backSubstLoop nComp flowIn is rhs).length = rhs.length := by
  induction is generalizing rhs with
  | nil => rfl
  | cons i is ih => rw [backSubstLoop, ih, List.length_set]

theorem backSubstLoop_getD_of_ne (nComp : ℕ) (flowIn : ℚ) (is : List ℕ) (rhs : List ℚ) (j : ℕ)
    (h : ∀ i ∈ is, nComp + i ≠ j) :
    (backSubstLoop nComp flowIn is rhs).getD j 0 = rhs.getD j 0 := by
  induction is generalizing rhs with
  | nil => rfl
  | cons i is ih =>
    rw [backSubstLoop, ih _ (fun a ha => h a (List.mem_cons_of_mem i ha)),
      getD_set_ne _ _ _ _ (h i (List.mem_cons_self i is))]

theorem backSubstLoop_getD (nComp : ℕ) (flowIn : ℚ) (is : List ℕ) (rhs : List ℚ) (i : ℕ)
    (hnd : is.Nodup) (hlt : ∀ k ∈ is, k < nComp) (hmem : i ∈ is)
    (hlen : nComp + i < rhs.length) :
    (backSubstLoop nComp flowIn is rhs).getD (nComp + i) 0 =
      rhs.getD (nComp + i) 0 + flowIn * rhs.getD i 0 := by
  induction is generalizing rhs with
  | nil => cases hmem
  | cons k is ih =>
    rw [backSubstLoop]
    rcases List.mem_cons.mp hmem with hik | hik
    · subst hik
      rw [backSubstLoop_getD_of_ne _ _ _ _ _ (fun a ha hcontra => ?_),
        getD_set_self _ _ _ hlen]
      exact (List.nodup_cons.mp hnd).1 (by
        have : a = i := by omega
        rwa [this] at ha)
    · have hki : k ≠ i := by
        intro hcontra
        exact (List.nodup_cons.mp hnd).1 (hcontra ▸ hik)
      have hklt : k < nComp := hlt k (List.mem_cons_self k is)
      have hilt : i < nComp := hlt i (List.mem_cons_of_mem k hik)
      rw [ih _ (List.nodup_cons.mp hnd).2 (fun a ha => hlt a (List.mem_cons_of_mem k ha)) hik
          (by rw [List.length_set]; exact hlen),
        getD_set_ne _ _ _ _ (by omega), getD_set_ne _ _ _ _ (by omega)]

/-- C5: the right-hand side handed to the factorized solve carries the inlet
elimination: entry `nComp + i` equals the original `rhs[nComp + i]` plus
`flowIn * rhs[i]`, for every component `i` (the back-substitution happens before
the factorization branch and before the solve). -/
theorem linearSolve_rhs_back_substitution (p : CSTRParams) (tf : ℚ) (y : List ℚ)
    (bindDisc : ℕ → ℕ → ℚ) (st : CSTRLinAlg) (rhs : List ℚ) (i : ℕ) (hi : i < p.nComp)
    (hlen : p.nComp + i < rhs.length) :
    ((linearSolve p tf y bindDisc st rhs).2).getD (p.nComp + i) 0 =
      rhs.getD (p.nComp + i) 0 + p.flowRateIn * rhs.getD i 0 := by
  have hsnd : (linearSolve p tf y bindDisc st rhs).2 =
      backSubstLoop p.nComp p.flowRateIn (List.range p.nComp) rhs := by
    rw [linearSolve]
    split <;> rfl
  rw [hsnd]
  exact backSubstLoop_getD _ _ _ _ _ (List.nodup_range _) (fun k hk => List.mem_range.mp hk)
    (List.mem_range.mpr hi) hlen

/-- Closed witness for `linearSolve_rhs_back_substitution`: one component,
`rhs = [a, b] = [3, 5]`, `flowIn = 7` ⇒ tank entry `5 + 7 * 3 = 26`. -/
theorem linearSolve_rhs_back_substitution_witness :
    ((0 : ℕ) < 1 ∧ 1 + 0 < ([3, 5] : List ℚ).length) ∧
      ((linearSolve ⟨1, [0], 7, 1, 0, 1⟩ 1 [0, 0, 0] (fun _ _ => 0)
          ⟨fun _ _ => 0, fun _ _ => 0, false⟩ [3, 5]).2).getD (1 + 0) 0 =
        ([3, 5] : List ℚ).getD (1 + 0) 0 + 7 * ([3, 5] : List ℚ).getD 0 0 :=
  ⟨⟨by decide, by decide⟩,
    linearSolve_rhs_back_substitution ⟨1, [0], 7, 1, 0, 1⟩ 1 [0, 0, 0] (fun _ _ => 0)
      ⟨fun _ _ => 0, fun _ _ => 0, false⟩ [3, 5] 0 (by decide) (by decide)⟩

/-! ## Configuration errors (`CSTRModel::configure`, `CSTRModel::applyInitialCondition`) -/

/-- The failure raised synchronously during configuration
(`throw InvalidParameterException(msg)`). -/
inductive ConfigError where
  | invalidParameter (msg : String)
  deriving DecidableEq

/-- The binding-model section of `CSTRModel::configure`: when `ADSORPTION_MODEL`
exists, `helper.createBindingModel(name)` is consulted (`recognized` models which
variant names the external factory resolves); a null result raises
`InvalidParameterException("Unknown binding model " + name)`; otherwise this
section succeeds (with no name requested, the `"NONE"` model is built). -/
def configureBindingModel (recognized : String → Bool) (adsorptionModel : Option String) :
    Except ConfigError Unit :=
  match adsorptionModel with
  | some name =>
      if recognized name then Except.ok ()
      else Except.error (ConfigError.invalidParameter ("Unknown binding model " ++ name))
  | none => Except.ok ()

/-- `CSTRModel::applyInitialCondition(paramProvider, vecStateY, vecStateYdot)`:
with `INIT_STATE` present its first `numDofs` values are copied into the state
(and, when it holds at least `2 * numDofs` values, the second `numDofs` into the
derivative).  Otherwise `INIT_C` is read and must hold at least `nComp` values,
else `InvalidParameterException("INIT_C does not contain enough values for all
components")` is raised; then `INIT_Q` (default zeros) fills the bound-state
slots and `INIT_VOLUME` (default `0`) the volume slot. -/
def applyInitialCondition (p : CSTRParams) (initState : Option (List ℚ)) (initC : List ℚ)
    (initQ : Option (List ℚ)) (initVolume : Option ℚ) (y yDot : List ℚ) :
    Except ConfigError (List ℚ × List ℚ) :=
  match initState with
  | some st =>
      let y1 := overwriteFrom y 0 (st.take (numDofs p))
      if 2 * numDofs p ≤ st.length then
        Except.ok (y1, overwriteFrom yDot 0 ((st.drop (numDofs p)).take (numDofs p)))
      else Except.ok (y1, yDot)
  | none =>
      if initC.length < p.nComp then
        Except.error
          (ConfigError.invalidParameter "INIT_C does not contain enough values for all components")
      else
        let y1 := overwriteFrom y p.nComp (initC.take p.nComp)
        let y2 := match initQ with
          | some q => overwriteFrom y1 (2 * p.nComp) (q.take (strideBound p))
          | none => overwriteFrom y1 (2 * p.nComp) (List.replicate (strideBound p) 0)
        Except.ok (y2.set (2 * p.nComp + strideBound p) (initVolume.getD 0), yDot)

/-- C9: an unrecognized `ADSORPTION_MODEL` name makes configuration fail with
exactly the invalid-parameter error `"Unknown binding model " ++ name`, and an
`INIT_C` array shorter than the component count makes `applyInitialCondition`
fail with exactly the invalid-parameter error about `INIT_C`; both are the
functions' synchronous results and no other error value can be produced on
these paths. -/
theorem configure_invalid_parameter_errors (recognized : String → Bool) (name : String)
    (p : CSTRParams) (initC : List ℚ) (initQ : Option (List ℚ)) (initVolume : Option ℚ)
    (y yDot : List ℚ) (hname : recognized name = false) (hshort : initC.length < p.nComp) :
    configureBindingModel recognized (some name) =
        Except.error (ConfigError.invalidParameter ("Unknown binding model " ++ name)) ∧
      applyInitialCondition p none initC initQ initVolume y yDot =
        Except.error
          (ConfigError.invalidParameter
            "INIT_C does not contain enough values for all components") := by
  constructor
  · simp [configureBindingModel, hname]
  · simp [applyInitialCondition, hshort]

/-- Closed witness for `configure_invalid_parameter_errors`: a factory resolving
no names, the request `"SOME_UNKNOWN_MODEL"`, and a one-entry `INIT_C` for two
components. -/
theorem configure_invalid_parameter_errors_witness :
    ((fun _ : String => false) "SOME_UNKNOWN_MODEL" = false ∧ ([1] : List ℚ).length < 2) ∧
      (configureBindingModel (fun _ => false) (some "SOME_UNKNOWN_MODEL") =
          Except.error
            (ConfigError.invalidParameter ("Unknown binding model " ++ "SOME_UNKNOWN_MODEL")) ∧
        applyInitialCondition ⟨2, [0, 0], 1, 1, 0, 1⟩ none [1] none none [0, 0, 0, 0, 0]
            [0, 0, 0, 0, 0] =
          Except.error
            (ConfigError.invalidParameter
              "INIT_C does not contain enough values for all components")) :=
  ⟨⟨rfl, by decide⟩,
    configure_invalid_parameter_errors (fun _ => false) "SOME_UNKNOWN_MODEL"
      ⟨2, [0, 0], 1, 1, 0, 1⟩ [1] none none [0, 0, 0, 0, 0] [0, 0, 0, 0, 0] rfl (by decide)⟩

end Cadet
